import Mathlib

/-!
Verification of the run/file/engine coordination core of subsyncarr_plus.

The definitions below are a shallow embedding of the TypeScript sources:
- `src/database.ts` (SubsyncarrPlusDatabase: runs, file_results,
  engine_failure_tracking tables and their operations),
- `src/coordinator.ts` (ProcessingCoordinator and StateManager),
- `src/processingEngine.ts` (ProcessingEngine: batching and the per-file
  engine loop).

SQLite tables are modelled as Lean lists of rows; SQL UPDATE ... WHERE is a
map over the rows that touches exactly the matching ones; SELECT ... LIMIT
with ORDER BY is a stable sort followed by take.  Timestamps produced by
Date.now() are passed in explicitly as `now` arguments.
-/

/-! ## Generic list lemmas used throughout -/

theorem find?_map_pres {α : Type} (g : α → α) (q : α → Bool)
    (hq : ∀ a, q (g a) = q a) :
    ∀ l : List α, (l.map g).find? q = (l.find? q).map g := by
  intro l
  induction l with
  | nil => simp
  | cons a l ih =>
    by_cases h : q a = true
    · rw [List.map_cons, List.find?_cons_of_pos _ (by rw [hq]; exact h),
        List.find?_cons_of_pos _ h]
      rfl
    · rw [List.map_cons,
        List.find?_cons_of_neg _ (by rw [hq]; exact h),
        List.find?_cons_of_neg _ h, ih]

theorem find?_append_none {α : Type} (l1 l2 : List α) (q : α → Bool)
    (h : l1.find? q = none) : (l1 ++ l2).find? q = l2.find? q := by
  induction l1 with
  | nil => simp
  | cons a l ih =>
    by_cases ha : q a = true
    · rw [List.find?_cons_of_pos _ ha] at h; cases h
    · rw [List.find?_cons_of_neg _ ha] at h
      rw [List.cons_append, List.find?_cons_of_neg _ ha, ih h]

theorem find?_filter {α : Type} (l : List α) (p q : α → Bool) :
    (l.filter q).find? p = l.find? (fun a => q a && p a) := by
  induction l with
  | nil => simp
  | cons a l ih =>
    by_cases hq : q a = true
    · by_cases hp : p a = true
      · rw [List.filter_cons_of_pos hq, List.find?_cons_of_pos _ hp,
          List.find?_cons_of_pos _ (by simp [hq, hp])]
      · rw [List.filter_cons_of_pos hq,
          List.find?_cons_of_neg _ (by simpa using hp),
          List.find?_cons_of_neg _ (by simp [hq, hp]), ih]
    · rw [List.filter_cons_of_neg (by simpa using hq),
        List.find?_cons_of_neg _ (by simp [hq]), ih]

/-! ## Failure Tracker (engine_failure_tracking table, src/database.ts) -/

/-- One row of the engine_failure_tracking table. -/
structure EngineFailureTracking where
  file_path : String
  engine : String
  consecutive_failures : Nat
  last_failure_time : Option Nat
  last_success_time : Option Nat
  is_skipped : Bool
  created_at : Nat
  updated_at : Nat
deriving DecidableEq

/-- The engine_failure_tracking table, UNIQUE(file_path, engine) in the schema. -/
abbrev FailureTable := List EngineFailureTracking

/-- Row selector for WHERE file_path = ? AND engine = ?. -/
def trackKey (filePath engine : String) (r : EngineFailureTracking) : Bool :=
  r.file_path == filePath && r.engine == engine

/-- SQL UPDATE ... WHERE p: rewrite exactly the rows matching p. -/
def updateWhere {α : Type} (p : α → Bool) (f : α → α) (l : List α) : List α :=
  l.map (fun a => if p a then f a else a)

/-- SubsyncarrPlusDatabase.getEngineFailureTracking: first row matching the key. -/
def getEngineFailureTracking (t : FailureTable) (filePath engine : String) :
    Option EngineFailureTracking :=
  t.find? (trackKey filePath engine)

/-- SubsyncarrPlusDatabase.recordEngineFailure: increment the consecutive
failure count (creating the row at count 1 if absent), set
is_skipped = (newFailureCount >= 3), update last_failure_time. -/
def recordEngineFailure (t : FailureTable) (filePath engine : String) (now : Nat) :
    FailureTable :=
  match getEngineFailureTracking t filePath engine with
  | some existing =>
    let newFailureCount := existing.consecutive_failures + 1
    let isSkipped := decide (3 ≤ newFailureCount)
    updateWhere (trackKey filePath engine)
      (fun r => { r with
        consecutive_failures := newFailureCount,
        last_failure_time := some now,
        is_skipped := isSkipped,
        updated_at := now }) t
  | none =>
    t ++ [{ file_path := filePath, engine := engine, consecutive_failures := 1,
            last_failure_time := some now, last_success_time := none,
            is_skipped := false, created_at := now, updated_at := now }]

/-- SubsyncarrPlusDatabase.recordEngineSuccess: reset the count to 0, clear
is_skipped, update last_success_time (creating the row if absent). -/
def recordEngineSuccess (t : FailureTable) (filePath engine : String) (now : Nat) :
    FailureTable :=
  match getEngineFailureTracking t filePath engine with
  | some _ =>
    updateWhere (trackKey filePath engine)
      (fun r => { r with
        consecutive_failures := 0,
        last_success_time := some now,
        is_skipped := false,
        updated_at := now }) t
  | none =>
    t ++ [{ file_path := filePath, engine := engine, consecutive_failures := 0,
            last_failure_time := none, last_success_time := some now,
            is_skipped := false, created_at := now, updated_at := now }]

/-- SubsyncarrPlusDatabase.resetEngineSkipStatus: clear count and is_skipped
for one engine of the file, or for every engine of the file when the engine
argument is omitted. -/
def resetEngineSkipStatus (t : FailureTable) (filePath : String)
    (engine : Option String) (now : Nat) : FailureTable :=
  match engine with
  | some e =>
    updateWhere (trackKey filePath e)
      (fun r => { r with consecutive_failures := 0, is_skipped := false,
                         updated_at := now }) t
  | none =>
    updateWhere (fun r => r.file_path == filePath)
      (fun r => { r with consecutive_failures := 0, is_skipped := false,
                         updated_at := now }) t

/-- Modelled from the spec: the repository file stateManager.ts is present in
src only as an older revision without the failure-tracking wrappers, although
processingEngine.ts calls stateManager.shouldSkipEngine.  Per the spec,
shouldSkip(file, engine) is true iff a tracking record exists with
is_skipped true. -/
def shouldSkipEngine (t : FailureTable) (filePath engine : String) : Bool :=
  match getEngineFailureTracking t filePath engine with
  | some r => r.is_skipped
  | none => false

/-- Observer: the consecutive failure count visible for a (file, engine) key
(0 when no record exists). -/
def consecutiveFailures (t : FailureTable) (filePath engine : String) : Nat :=
  match getEngineFailureTracking t filePath engine with
  | some r => r.consecutive_failures
  | none => 0

theorem trackKey_update_pres (filePath engine : String)
    (f : EngineFailureTracking → EngineFailureTracking)
    (hf : ∀ r, (f r).file_path = r.file_path ∧ (f r).engine = r.engine)
    (a : EngineFailureTracking) :
    trackKey filePath engine
      (if trackKey filePath engine a then f a else a) =
    trackKey filePath engine a := by
  by_cases h : trackKey filePath engine a = true
  · rw [if_pos h]
    unfold trackKey at h ⊢
    rw [(hf a).1, (hf a).2, h]
  · rw [if_neg h]

theorem find?_updateWhere_key (t : FailureTable) (filePath engine : String)
    (f : EngineFailureTracking → EngineFailureTracking)
    (hf : ∀ r, (f r).file_path = r.file_path ∧ (f r).engine = r.engine) :
    (updateWhere (trackKey filePath engine) f t).find? (trackKey filePath engine)
      = (t.find? (trackKey filePath engine)).map
          (fun a => if trackKey filePath engine a then f a else a) := by
  unfold updateWhere
  exact find?_map_pres _ _ (trackKey_update_pres filePath engine f hf) t

theorem get_recordEngineFailure (t : FailureTable) (filePath engine : String)
    (now : Nat) :
    getEngineFailureTracking (recordEngineFailure t filePath engine now)
      filePath engine =
    some (match getEngineFailureTracking t filePath engine with
      | some existing =>
        { existing with
          consecutive_failures := existing.consecutive_failures + 1,
          last_failure_time := some now,
          is_skipped := decide (3 ≤ existing.consecutive_failures + 1),
          updated_at := now }
      | none =>
        { file_path := filePath, engine := engine, consecutive_failures := 1,
          last_failure_time := some now, last_success_time := none,
          is_skipped := false, created_at := now, updated_at := now }) := by
  unfold recordEngineFailure
  cases hfind : getEngineFailureTracking t filePath engine with
  | some existing =>
    unfold getEngineFailureTracking at hfind ⊢
    dsimp only
    rw [find?_updateWhere_key t filePath engine
      (fun r => { r with
        consecutive_failures := existing.consecutive_failures + 1,
        last_failure_time := some now,
        is_skipped := decide (3 ≤ existing.consecutive_failures + 1),
        updated_at := now })
      (fun r => ⟨rfl, rfl⟩), hfind]
    have hk := List.find?_some hfind
    simp [hk]
  | none =>
    unfold getEngineFailureTracking at hfind ⊢
    dsimp only
    rw [find?_append_none _ _ _ hfind]
    simp [List.find?, trackKey]

theorem get_recordEngineSuccess (t : FailureTable) (filePath engine : String)
    (now : Nat) :
    getEngineFailureTracking (recordEngineSuccess t filePath engine now)
      filePath engine =
    some (match getEngineFailureTracking t filePath engine with
      | some existing =>
        { existing with
          consecutive_failures := 0,
          last_success_time := some now,
          is_skipped := false,
          updated_at := now }
      | none =>
        { file_path := filePath, engine := engine, consecutive_failures := 0,
          last_failure_time := none, last_success_time := some now,
          is_skipped := false, created_at := now, updated_at := now }) := by
  unfold recordEngineSuccess
  cases hfind : getEngineFailureTracking t filePath engine with
  | some existing =>
    unfold getEngineFailureTracking at hfind ⊢
    dsimp only
    rw [find?_updateWhere_key t filePath engine
      (fun r => { r with
        consecutive_failures := 0,
        last_success_time := some now,
        is_skipped := false,
        updated_at := now })
      (fun r => ⟨rfl, rfl⟩), hfind]
    have hk := List.find?_some hfind
    simp [hk]
  | none =>
    unfold getEngineFailureTracking at hfind ⊢
    dsimp only
    rw [find?_append_none _ _ _ hfind]
    simp [List.find?, trackKey]

theorem consecutiveFailures_recordEngineFailure (t : FailureTable)
    (filePath engine : String) (now : Nat) :
    consecutiveFailures (recordEngineFailure t filePath engine now)
      filePath engine = consecutiveFailures t filePath engine + 1 := by
  unfold consecutiveFailures
  rw [get_recordEngineFailure]
  cases getEngineFailureTracking t filePath engine <;> rfl

theorem shouldSkip_recordEngineFailure (t : FailureTable)
    (filePath engine : String) (now : Nat) :
    shouldSkipEngine (recordEngineFailure t filePath engine now)
      filePath engine = decide (3 ≤ consecutiveFailures t filePath engine + 1) := by
  unfold shouldSkipEngine consecutiveFailures
  rw [get_recordEngineFailure]
  cases getEngineFailureTracking t filePath engine <;> rfl

theorem consecutiveFailures_recordEngineSuccess (t : FailureTable)
    (filePath engine : String) (now : Nat) :
    consecutiveFailures (recordEngineSuccess t filePath engine now)
      filePath engine = 0 := by
  unfold consecutiveFailures
  rw [get_recordEngineSuccess]
  cases getEngineFailureTracking t filePath engine <;> rfl

theorem shouldSkip_recordEngineSuccess (t : FailureTable)
    (filePath engine : String) (now : Nat) :
    shouldSkipEngine (recordEngineSuccess t filePath engine now)
      filePath engine = false := by
  unfold shouldSkipEngine
  rw [get_recordEngineSuccess]
  cases getEngineFailureTracking t filePath engine <;> rfl

/-! ## Claim C1: three failures latch the skip, a success resets it -/

/-- A reachable tracker state with two consecutive failures recorded for
("a.srt", "ffsubsync"): no skip is latched in it. -/
def c1TwoFailures : FailureTable :=
  recordEngineFailure (recordEngineFailure [] "a.srt" "ffsubsync" 0)
    "a.srt" "ffsubsync" 1

/-- C1 counterexample: the claim quantifies over every state with no skip
latched, but from the reachable no-skip state holding 2 consecutive failures
a single recordEngineFailure call already makes shouldSkip true, so shouldSkip
is not false after the first of three consecutive failure calls. -/
theorem c1_counterexample :
    shouldSkipEngine c1TwoFailures "a.srt" "ffsubsync" = false ∧
    consecutiveFailures c1TwoFailures "a.srt" "ffsubsync" = 2 ∧
    shouldSkipEngine (recordEngineFailure c1TwoFailures "a.srt" "ffsubsync" 2)
      "a.srt" "ffsubsync" = true := by
  decide

/-- C1 (amended): starting from any state whose record for (file, engine) is
absent or has consecutive_failures = 0, three consecutive recordEngineFailure
calls with no intervening success make shouldSkip true exactly after the
third call (false after the first and the second); and a recordEngineSuccess
call, from any state whatsoever, resets the consecutive-failure count to 0
and makes shouldSkip false. -/
theorem c1_failure_threshold_amended (t : FailureTable) (filePath engine : String)
    (n1 n2 n3 : Nat) (h : consecutiveFailures t filePath engine = 0) :
    shouldSkipEngine (recordEngineFailure t filePath engine n1)
      filePath engine = false ∧
    shouldSkipEngine (recordEngineFailure
      (recordEngineFailure t filePath engine n1) filePath engine n2)
      filePath engine = false ∧
    shouldSkipEngine (recordEngineFailure (recordEngineFailure
      (recordEngineFailure t filePath engine n1) filePath engine n2)
      filePath engine n3) filePath engine = true ∧
    (∀ (s : FailureTable) (n4 : Nat),
      consecutiveFailures (recordEngineSuccess s filePath engine n4)
        filePath engine = 0 ∧
      shouldSkipEngine (recordEngineSuccess s filePath engine n4)
        filePath engine = false) := by
  refine ⟨?_, ?_, ?_, fun s n4 => ⟨consecutiveFailures_recordEngineSuccess s filePath engine n4, shouldSkip_recordEngineSuccess s filePath engine n4⟩⟩
  · rw [shouldSkip_recordEngineFailure, h]; decide
  · rw [shouldSkip_recordEngineFailure, consecutiveFailures_recordEngineFailure, h]
    decide
  · rw [shouldSkip_recordEngineFailure, consecutiveFailures_recordEngineFailure,
      consecutiveFailures_recordEngineFailure, h]
    decide

/-- C1 witness: the amended theorem applied to the empty tracker. -/
theorem c1_failure_threshold_witness :
    consecutiveFailures [] "a.srt" "ffsubsync" = 0 ∧
    (shouldSkipEngine (recordEngineFailure [] "a.srt" "ffsubsync" 0)
      "a.srt" "ffsubsync" = false ∧
    shouldSkipEngine (recordEngineFailure
      (recordEngineFailure [] "a.srt" "ffsubsync" 0) "a.srt" "ffsubsync" 1)
      "a.srt" "ffsubsync" = false ∧
    shouldSkipEngine (recordEngineFailure (recordEngineFailure
      (recordEngineFailure [] "a.srt" "ffsubsync" 0) "a.srt" "ffsubsync" 1)
      "a.srt" "ffsubsync" 2) "a.srt" "ffsubsync" = true ∧
    (∀ (s : FailureTable) (n4 : Nat),
      consecutiveFailures (recordEngineSuccess s "a.srt" "ffsubsync" n4)
        "a.srt" "ffsubsync" = 0 ∧
      shouldSkipEngine (recordEngineSuccess s "a.srt" "ffsubsync" n4)
        "a.srt" "ffsubsync" = false)) :=
  ⟨by decide, c1_failure_threshold_amended [] "a.srt" "ffsubsync" 0 1 2 (by decide)⟩

/-! ## Claim C2: is_skipped is always exactly (consecutive_failures >= 3) -/

/-- The per-row skip invariant of the failure tracker. -/
def trackerInvariant (t : FailureTable) : Prop :=
  ∀ r ∈ t, r.is_skipped = decide (3 ≤ r.consecutive_failures)

theorem trackerInvariant_updateWhere (t : FailureTable) (p : EngineFailureTracking → Bool)
    (f : EngineFailureTracking → EngineFailureTracking)
    (h : trackerInvariant t)
    (hf : ∀ r ∈ t, (f r).is_skipped = decide (3 ≤ (f r).consecutive_failures)) :
    trackerInvariant (updateWhere p f t) := by
  intro r hr
  rcases List.mem_map.mp hr with ⟨a, ha, rfl⟩
  by_cases hp : p a = true
  · rw [if_pos hp]; exact hf a ha
  · rw [if_neg hp]; exact h a ha

/-- C2: every failure-tracker operation preserves the invariant
is_skipped = (consecutive_failures >= 3), including the record-creation
branches of recordEngineFailure and recordEngineSuccess and both forms of
resetEngineSkipStatus. -/
theorem c2_skip_invariant (t : FailureTable) (filePath engine : String)
    (now : Nat) (h : trackerInvariant t) :
    trackerInvariant (recordEngineFailure t filePath engine now) ∧
    trackerInvariant (recordEngineSuccess t filePath engine now) ∧
    trackerInvariant (resetEngineSkipStatus t filePath (some engine) now) ∧
    trackerInvariant (resetEngineSkipStatus t filePath none now) := by
  refine ⟨?_, ?_, ?_, ?_⟩
  · unfold recordEngineFailure
    cases getEngineFailureTracking t filePath engine with
    | some existing =>
      exact trackerInvariant_updateWhere t _ _ h (fun r _ => rfl)
    | none =>
      intro r hr
      rcases List.mem_append.mp hr with hmem | hmem
      · exact h r hmem
      · rcases List.mem_singleton.mp hmem with rfl; rfl
  · unfold recordEngineSuccess
    cases getEngineFailureTracking t filePath engine with
    | some existing =>
      exact trackerInvariant_updateWhere t _ _ h (fun r _ => rfl)
    | none =>
      intro r hr
      rcases List.mem_append.mp hr with hmem | hmem
      · exact h r hmem
      · rcases List.mem_singleton.mp hmem with rfl; rfl
  · exact trackerInvariant_updateWhere t _ _ h (fun r _ => rfl)
  · exact trackerInvariant_updateWhere t _ _ h (fun r _ => rfl)

/-- C2 witness: the invariant preservation applied to a concrete one-row
table that satisfies the invariant. -/
theorem c2_skip_invariant_witness :
    trackerInvariant (recordEngineFailure
      (recordEngineFailure [] "b.srt" "alass" 5) "b.srt" "alass" 6) ∧
    trackerInvariant (recordEngineSuccess
      (recordEngineFailure [] "b.srt" "alass" 5) "b.srt" "alass" 6) ∧
    trackerInvariant (resetEngineSkipStatus
      (recordEngineFailure [] "b.srt" "alass" 5) "b.srt" (some "alass") 6) ∧
    trackerInvariant (resetEngineSkipStatus
      (recordEngineFailure [] "b.srt" "alass" 5) "b.srt" none 6) :=
  c2_skip_invariant (recordEngineFailure [] "b.srt" "alass" 5) "b.srt" "alass" 6
    (by unfold trackerInvariant; decide)

/-! ## Run / FileResult store (src/database.ts) -/

inductive RunStatus
| running
| completed
| cancelled
deriving DecidableEq

/-- One row of the runs table (src/database.ts, interface Run). -/
structure Run where
  id : String
  start_time : Nat
  end_time : Option Nat
  total_files : Nat
  completed : Nat
  skipped : Nat
  failed : Nat
  total_engines : Nat
  completed_engines : Nat
  status : RunStatus
  logs : String
deriving DecidableEq

inductive FileStatus
| pending
| processing
| completed
| skipped
| error
deriving DecidableEq

/-- One per-engine outcome as stored in the engines JSON object of a
file_results row and carried by file:engine_completed events. -/
structure EngineResult where
  success : Bool
  duration : Nat
  message : String
  skipped : Bool
deriving DecidableEq

/-- The JSON object mapping engine name to its last result: an association
list with unique keys, in property-insertion order. -/
abbrev EnginesMap := List (String × EngineResult)

/-- JavaScript property assignment engines[engine] = result: replace the
value in place when the key exists, append the property otherwise. -/
def setKey : EnginesMap → String → EngineResult → EnginesMap
  | [], k, v => [(k, v)]
  | (k2, v2) :: rest, k, v =>
    if k2 = k then (k, v) :: rest else (k2, v2) :: setKey rest k v

/-- JavaScript property read engines[e]. -/
def lookupKey : EnginesMap → String → Option EngineResult
  | [], _ => none
  | (k2, v2) :: rest, k => if k2 = k then some v2 else lookupKey rest k

/-- One row of the file_results table (src/database.ts, interface FileResult);
the AUTOINCREMENT integer id is never consulted by the coordination core and
is omitted. -/
structure FileResult where
  run_id : String
  file_path : String
  video_path : Option String
  status : FileStatus
  current_engine : Option String
  engines : EnginesMap
  created_at : Nat
  updated_at : Nat
deriving DecidableEq

/-- The persisted store: the runs and file_results tables, in insertion
order. -/
structure DbState where
  runs : List Run
  file_results : List FileResult
deriving DecidableEq

/-- SubsyncarrPlusDatabase.createRun: INSERT a new run with status running
and zeroed counters. -/
def createRun (db : DbState) (id : String) (now totalFiles : Nat) : DbState :=
  { db with runs := db.runs ++
      [{ id := id, start_time := now, end_time := none,
         total_files := totalFiles, completed := 0, skipped := 0, failed := 0,
         total_engines := 0, completed_engines := 0,
         status := RunStatus.running, logs := "" }] }

/-- SubsyncarrPlusDatabase.updateRun: UPDATE runs SET ... WHERE id = ?.
The Partial of fields passed in TypeScript is modelled as the field-update
function f; no caller ever writes the id field. -/
def updateRun (db : DbState) (id : String) (f : Run → Run) : DbState :=
  { db with runs := updateWhere (fun r => r.id == id) f db.runs }

/-- SubsyncarrPlusDatabase.getRun: SELECT * FROM runs WHERE id = ?. -/
def getRun (db : DbState) (id : String) : Option Run :=
  db.runs.find? (fun r => r.id == id)

/-- Stable insertion for ORDER BY start_time DESC. -/
def insertByStartDesc (r : Run) : List Run → List Run
  | [] => [r]
  | x :: xs =>
    if x.start_time < r.start_time then r :: x :: xs
    else x :: insertByStartDesc r xs

/-- Stable sort of the runs table by start_time, newest first. -/
def sortByStartDesc : List Run → List Run
  | [] => []
  | r :: rs => insertByStartDesc r (sortByStartDesc rs)

/-- SubsyncarrPlusDatabase.getRunHistory: SELECT * FROM runs ORDER BY
start_time DESC LIMIT ?. -/
def getRunHistory (db : DbState) (limit : Nat) : List Run :=
  (sortByStartDesc db.runs).take limit

/-- Row selector for WHERE run_id = ? AND file_path = ?. -/
def fileKey (runId filePath : String) (r : FileResult) : Bool :=
  r.run_id == runId && r.file_path == filePath

/-- SubsyncarrPlusDatabase.createFileResult: INSERT a pending file row. -/
def createFileResult (db : DbState) (runId filePath : String)
    (videoPath : Option String) (now : Nat) : DbState :=
  { db with file_results := db.file_results ++
      [{ run_id := runId, file_path := filePath, video_path := videoPath,
         status := FileStatus.pending, current_engine := none, engines := [],
         created_at := now, updated_at := now }] }

/-- SubsyncarrPlusDatabase.updateFileResult: UPDATE file_results SET ...,
updated_at = Date.now() WHERE run_id = ? AND file_path = ?. -/
def updateFileResult (db : DbState) (runId filePath : String)
    (f : FileResult → FileResult) (now : Nat) : DbState :=
  { db with file_results :=
      (updateWhere (fileKey runId filePath)
        (fun r => { (f r) with updated_at := now }) db.file_results) }

/-- SubsyncarrPlusDatabase.getFileResults: SELECT * FROM file_results WHERE
run_id = ? ORDER BY created_at ASC.  Rows are only ever appended with
Date.now() timestamps, so created_at is nondecreasing in stored order and
the query returns the stored order, which filter preserves. -/
def getFileResults (db : DbState) (runId : String) : List FileResult :=
  db.file_results.filter (fun r => r.run_id == runId)

/-! ## StateManager (src/coordinator.ts, appended stateManager revision) -/

/-- The events the StateManager emits to external listeners. -/
inductive SMEvent
| run_started (r : Run)
| run_completed (r : Run)
| run_cancelled (r : Run)
| file_updated (f : FileResult) (r : Option Run)
| file_cleared (f : FileResult)
deriving DecidableEq

/-- StateManager in-memory state: the database plus currentRunId. -/
structure SMState where
  db : DbState
  currentRunId : Option String
deriving DecidableEq

/-- StateManager.emitFileUpdate: re-read the file and, when found, emit
file:updated with the file and its run. -/
def emitFileUpdate (db : DbState) (runId filePath : String) : List SMEvent :=
  match (getFileResults db runId).find? (fun f => f.file_path == filePath) with
  | some file => [SMEvent.file_updated file (getRun db runId)]
  | none => []

/-- StateManager.incrementCompletedEngines: read the run and write
completed_engines + 1.  The TypeScript dereferences getRun(runId) with a
non-null assertion; a missing run would throw, modelled as a no-op branch
that the theorems below never take. -/
def smIncrementCompletedEngines (sm : SMState) (runId : String) : SMState :=
  match getRun sm.db runId with
  | some run =>
    { sm with db :=
        (updateRun sm.db runId
          (fun r => { r with completed_engines := run.completed_engines + 1 })) }
  | none => sm

/-- StateManager.updateFileEngine: find the FileResult, merge the engine
result into its engines JSON object, write it back and emit file:updated;
silently do nothing when the file is absent. -/
def smUpdateFileEngine (sm : SMState) (runId filePath engine : String)
    (result : EngineResult) (now : Nat) : SMState × List SMEvent :=
  match (getFileResults sm.db runId).find? (fun f => f.file_path == filePath) with
  | some file =>
    let engines := setKey file.engines engine result
    let db1 := updateFileResult sm.db runId filePath
      (fun r => { r with engines := engines }) now
    ({ sm with db := db1 }, emitFileUpdate db1 runId filePath)
  | none => (sm, [])

/-- StateManager.handleIncompleteRuns (constructor-time startup recovery):
fetch the 100 most recent runs, and mark every one still running as
cancelled with end_time set to its own start_time. -/
def handleIncompleteRuns (db : DbState) : DbState :=
  ((getRunHistory db 100).filter (fun r => r.status == RunStatus.running)).foldl
    (fun acc run => updateRun acc run.id
      (fun r => { r with status := RunStatus.cancelled,
                         end_time := some run.start_time })) db

/-! ## Coordinator (src/coordinator.ts, ProcessingCoordinator) -/

/-- ProcessingCoordinator state: the StateManager it owns, the failure
tracker table behind it, the nullable in-flight processing promise
(modelled as a Bool), its own currentRunId and stopRequested flags, and the
ProcessingEngine transient state that reset() clears. -/
structure CoordState where
  sm : SMState
  tracker : FailureTable
  processingInFlight : Bool
  currentRunId : Option String
  stopRequested : Bool
  engineCancelledFiles : List String
  engineLogBuffer : List String
deriving DecidableEq

/-- The synchronous prefix of ProcessingCoordinator.startRun: the in-flight
guard rejects with "A run is already in progress" while a run is in flight,
touching nothing; otherwise engine.reset() clears the cancelled set and the
log buffer and the coordinator clears currentRunId and stopRequested before
launching the asynchronous run. -/
def coordStartRunSync (st : CoordState) : CoordState × Option String :=
  if st.processingInFlight then (st, some "A run is already in progress")
  else
    ({ st with
        currentRunId := none,
        stopRequested := false,
        engineCancelledFiles := [],
        engineLogBuffer := [] },
      none)

/-- The file:engine_completed handler of setupEventHandlers: when a current
run id is set, merge the result via updateFileEngine and increment the run
completed_engines counter (both from src/coordinator.ts lines 55-78).
The third mirroring action is modelled from the spec: the current
stateManager.ts revision is absent from src (database.ts
recordEngineFailure/recordEngineSuccess have no caller in src), and per the
spec the handler forwards the result, success into the success-record
operation and failure into the failure-record operation. -/
def coordHandleEngineCompleted (st : CoordState) (srtPath engine : String)
    (result : EngineResult) (now : Nat) : CoordState × List SMEvent :=
  match st.currentRunId with
  | none => (st, [])
  | some runId =>
    ({ st with
        sm :=
          (smIncrementCompletedEngines
            (smUpdateFileEngine st.sm runId srtPath engine result now).1 runId),
        tracker :=
          (if result.success
            then recordEngineSuccess st.tracker srtPath engine now
            else recordEngineFailure st.tracker srtPath engine now) },
      (smUpdateFileEngine st.sm runId srtPath engine result now).2)

/-! ## Lemmas about the store operations -/

theorem find?_updateWhere_gen {α : Type} (l : List α) (p : α → Bool) (f : α → α)
    (hf : ∀ a, p (f a) = p a) :
    (updateWhere p f l).find? p = (l.find? p).map (fun a => if p a then f a else a) := by
  unfold updateWhere
  apply find?_map_pres
  intro a
  by_cases h : p a = true
  · rw [if_pos h, hf a]
  · rw [if_neg h]

theorem find?_updateWhere_other {α : Type} (l : List α) (p q : α → Bool) (f : α → α)
    (hq : ∀ a, q (f a) = q a) :
    (updateWhere p f l).find? q = (l.find? q).map (fun a => if p a then f a else a) := by
  unfold updateWhere
  apply find?_map_pres
  intro a
  by_cases h : p a = true
  · rw [if_pos h, hq a]
  · rw [if_neg h]

theorem getRun_updateRun (db : DbState) (id2 id : String) (f : Run → Run)
    (hf : ∀ x, (f x).id = x.id) :
    getRun (updateRun db id2 f) id =
      (getRun db id).map (fun a => if a.id == id2 then f a else a) := by
  unfold getRun updateRun
  exact find?_updateWhere_other db.runs _ _ f
    (fun a => by show ((f a).id == id) = (a.id == id); rw [hf a])

theorem getRun_some_id (db : DbState) (id : String) (a : Run)
    (h : getRun db id = some a) : a.id = id := by
  have := List.find?_some h
  exact eq_of_beq this

theorem getRun_updateRun_ne (db : DbState) (id2 id : String) (f : Run → Run)
    (hf : ∀ x, (f x).id = x.id) (hne : id ≠ id2) :
    getRun (updateRun db id2 f) id = getRun db id := by
  rw [getRun_updateRun db id2 id f hf]
  cases hx : getRun db id with
  | none => rfl
  | some a =>
    have ha : a.id = id := getRun_some_id db id a hx
    have hb : (a.id == id2) = false := by
      rw [ha]; exact beq_eq_false_iff_ne.mpr hne
    simp only [Option.map_some']
    rw [if_neg (by rw [hb]; exact Bool.false_ne_true)]

theorem getRun_congr_runs (db1 db2 : DbState) (id : String)
    (h : db1.runs = db2.runs) : getRun db1 id = getRun db2 id := by
  unfold getRun; rw [h]

theorem getFileResults_congr (db1 db2 : DbState) (runId : String)
    (h : db1.file_results = db2.file_results) :
    getFileResults db1 runId = getFileResults db2 runId := by
  unfold getFileResults; rw [h]

theorem getFileResults_find?_eq (db : DbState) (runId filePath : String) :
    (getFileResults db runId).find? (fun f => f.file_path == filePath)
      = db.file_results.find? (fileKey runId filePath) := by
  unfold getFileResults
  rw [find?_filter]
  rfl

theorem getFileResult_updateFileResult (db : DbState) (runId filePath : String)
    (f : FileResult → FileResult) (now : Nat)
    (hf : ∀ x, (f x).run_id = x.run_id ∧ (f x).file_path = x.file_path) :
    (getFileResults (updateFileResult db runId filePath f now) runId).find?
        (fun x => x.file_path == filePath)
      = ((getFileResults db runId).find? (fun x => x.file_path == filePath)).map
          (fun a => if fileKey runId filePath a
            then { (f a) with updated_at := now } else a) := by
  rw [getFileResults_find?_eq, getFileResults_find?_eq]
  unfold updateFileResult
  apply find?_updateWhere_gen
  intro a
  show fileKey runId filePath { (f a) with updated_at := now } = fileKey runId filePath a
  unfold fileKey
  show ((f a).run_id == runId && (f a).file_path == filePath) = _
  rw [(hf a).1, (hf a).2]

theorem lookupKey_setKey_self (m : EnginesMap) (k : String) (v : EngineResult) :
    lookupKey (setKey m k v) k = some v := by
  induction m with
  | nil => simp [setKey, lookupKey]
  | cons p rest ih =>
    obtain ⟨k2, v2⟩ := p
    by_cases h : k2 = k
    · simp [setKey, h, lookupKey]
    · simp [setKey, h, lookupKey, ih]

theorem lookupKey_setKey_ne (m : EnginesMap) (k : String) (v : EngineResult)
    (e : String) (h : e ≠ k) :
    lookupKey (setKey m k v) e = lookupKey m e := by
  induction m with
  | nil =>
    simp only [setKey, lookupKey]
    rw [if_neg (Ne.symm h)]
  | cons p rest ih =>
    obtain ⟨k2, v2⟩ := p
    by_cases h2 : k2 = k
    · subst h2
      simp only [setKey, if_pos rfl, lookupKey]
      rw [if_neg (Ne.symm h), if_neg (Ne.symm h)]
    · simp only [setKey, if_neg h2, lookupKey]
      by_cases h3 : k2 = e
      · rw [if_pos h3, if_pos h3]
      · rw [if_neg h3, if_neg h3, ih]

/-- Core read-back lemma for StateManager.updateFileEngine when the file is
present: the runs table is untouched, and the re-read file row is the found
row with the merged engines object and the fresh updated_at. -/
theorem smUpdateFileEngine_found (sm : SMState) (runId filePath engine : String)
    (result : EngineResult) (now : Nat) (file : FileResult)
    (h : (getFileResults sm.db runId).find? (fun f => f.file_path == filePath)
      = some file) :
    (smUpdateFileEngine sm runId filePath engine result now).1.db.runs
        = sm.db.runs ∧
    (getFileResults (smUpdateFileEngine sm runId filePath engine result now).1.db
        runId).find? (fun f => f.file_path == filePath)
      = some { file with engines := setKey file.engines engine result,
                         updated_at := now } := by
  unfold smUpdateFileEngine
  rw [h]
  dsimp only
  constructor
  · rfl
  · rw [getFileResult_updateFileResult sm.db runId filePath
      (fun r => { r with engines := setKey file.engines engine result }) now
      (fun x => ⟨rfl, rfl⟩), h]
    have hk : fileKey runId filePath file = true := by
      rw [getFileResults_find?_eq] at h
      exact List.find?_some h
    simp only [Option.map_some']
    rw [if_pos hk]

/-! ## Claim C7: startRun while a run is in flight rejects without mutation -/

/-- C7: when the in-flight promise reference is non-null, the synchronous
prefix of ProcessingCoordinator.startRun rejects with the
"already in progress" error and returns the state entirely unchanged: no Run,
FileResult, counter or engine transient state is touched before the
rejection. -/
theorem c7_start_while_running_rejects (st : CoordState)
    (h : st.processingInFlight = true) :
    coordStartRunSync st = (st, some "A run is already in progress") := by
  unfold coordStartRunSync
  rw [if_pos h]

/-- A concrete coordinator state with a run in flight and a non-empty store. -/
def c7Db : DbState :=
  createFileResult (createRun { runs := [], file_results := [] } "run-1" 10 1)
    "run-1" "a.srt" (some "a.mkv") 11

def c7State : CoordState :=
  { sm := { db := c7Db, currentRunId := some "run-1" },
    tracker := [],
    processingInFlight := true,
    currentRunId := some "run-1",
    stopRequested := false,
    engineCancelledFiles := [],
    engineLogBuffer := [] }

/-- C7 witness: the rejection theorem applied to the concrete in-flight
state. -/
theorem c7_start_while_running_witness :
    c7State.processingInFlight = true ∧
    coordStartRunSync c7State = (c7State, some "A run is already in progress") :=
  ⟨rfl, c7_start_while_running_rejects c7State rfl⟩

/-! ## Claim C10: updateFileEngine on a missing file is a silent no-op -/

/-- C10: calling StateManager.updateFileEngine with a file path that has no
FileResult row in the run leaves the whole StateManager state (runs and
file results alike) unchanged and emits no event at all. -/
theorem c10_updateFileEngine_missing_noop (sm : SMState)
    (runId filePath engine : String) (result : EngineResult) (now : Nat)
    (h : (getFileResults sm.db runId).find? (fun f => f.file_path == filePath)
      = none) :
    smUpdateFileEngine sm runId filePath engine result now = (sm, []) := by
  unfold smUpdateFileEngine
  rw [h]

/-- C10 witness: the no-op theorem applied to a store that does hold a run
and a file, for a path that is not in it. -/
theorem c10_updateFileEngine_missing_witness :
    (getFileResults c7State.sm.db "run-1").find?
      (fun f => f.file_path == "missing.srt") = none ∧
    smUpdateFileEngine c7State.sm "run-1" "missing.srt" "ffsubsync"
      { success := true, duration := 3, message := "ok", skipped := false } 12
      = (c7State.sm, []) :=
  ⟨by rfl, c10_updateFileEngine_missing_noop c7State.sm "run-1" "missing.srt"
    "ffsubsync" { success := true, duration := 3, message := "ok", skipped := false }
    12 (by rfl)⟩

/-! ## Claim C9: engine-result round trip through updateFileEngine -/

/-- C9: writing an engine result through updateFileEngine and reading the
engines mapping of that file back yields exactly the written result (its
success, duration and message fields included) under that engine key, and
every other engine key of that file keeps its previously stored result. -/
theorem c9_engine_result_round_trip (sm : SMState)
    (runId filePath engine : String) (result : EngineResult) (now : Nat)
    (file : FileResult)
    (h : (getFileResults sm.db runId).find? (fun f => f.file_path == filePath)
      = some file) :
    ∃ fileAfter : FileResult,
      (getFileResults (smUpdateFileEngine sm runId filePath engine result
          now).1.db runId).find? (fun f => f.file_path == filePath)
        = some fileAfter ∧
      lookupKey fileAfter.engines engine = some result ∧
      (∀ e : String, e ≠ engine →
        lookupKey fileAfter.engines e = lookupKey file.engines e) := by
  obtain ⟨hruns, hread⟩ :=
    smUpdateFileEngine_found sm runId filePath engine result now file h
  refine ⟨_, hread, ?_, ?_⟩
  · exact lookupKey_setKey_self file.engines engine result
  · intro e he
    exact lookupKey_setKey_ne file.engines engine result e he

/-- C9 witness: the round trip on a concrete store whose file already holds
a result for another engine. -/
theorem c9_engine_result_round_trip_witness :
    ((getFileResults c7State.sm.db "run-1").find?
      (fun f => f.file_path == "a.srt")
      = some { run_id := "run-1", file_path := "a.srt",
               video_path := some "a.mkv", status := FileStatus.pending,
               current_engine := none, engines := [], created_at := 11,
               updated_at := 11 }) ∧
    (∃ fileAfter : FileResult,
      (getFileResults (smUpdateFileEngine c7State.sm "run-1" "a.srt" "ffsubsync"
          { success := true, duration := 3, message := "ok", skipped := false }
          12).1.db "run-1").find? (fun f => f.file_path == "a.srt")
        = some fileAfter ∧
      lookupKey fileAfter.engines "ffsubsync"
        = some { success := true, duration := 3, message := "ok",
                 skipped := false } ∧
      (∀ e : String, e ≠ "ffsubsync" →
        lookupKey fileAfter.engines e
          = lookupKey ([] : EnginesMap) e)) :=
  ⟨by rfl, c9_engine_result_round_trip c7State.sm "run-1" "a.srt" "ffsubsync"
    { success := true, duration := 3, message := "ok", skipped := false } 12
    { run_id := "run-1", file_path := "a.srt", video_path := some "a.mkv",
      status := FileStatus.pending, current_engine := none, engines := [],
      created_at := 11, updated_at := 11 } (by rfl)⟩

/-! ## Claim C3: the file:engine_completed handler mirrors all three ways -/

theorem file_results_smIncrementCompletedEngines (sm : SMState) (runId : String) :
    (smIncrementCompletedEngines sm runId).db.file_results
      = sm.db.file_results := by
  unfold smIncrementCompletedEngines
  cases getRun sm.db runId <;> rfl

theorem runs_smUpdateFileEngine (sm : SMState) (runId filePath engine : String)
    (result : EngineResult) (now : Nat) :
    (smUpdateFileEngine sm runId filePath engine result now).1.db.runs
      = sm.db.runs := by
  unfold smUpdateFileEngine
  cases (getFileResults sm.db runId).find? (fun f => f.file_path == filePath) <;>
    rfl

theorem getRun_smIncrementCompletedEngines (sm : SMState) (runId : String)
    (run : Run) (h : getRun sm.db runId = some run) :
    getRun (smIncrementCompletedEngines sm runId).db runId
      = some { run with completed_engines := run.completed_engines + 1 } := by
  unfold smIncrementCompletedEngines
  rw [h]
  dsimp only
  rw [getRun_updateRun sm.db runId runId
    (fun r => { r with completed_engines := run.completed_engines + 1 })
    (fun x => rfl), h]
  have hid : run.id = runId := getRun_some_id sm.db runId run h
  simp only [Option.map_some']
  rw [if_pos (by rw [hid]; exact beq_self_eq_true runId)]

/-- C3: with a current run id set, the file:engine_completed handler
(i) merges the engine result into that FileResult engines mapping, readable
back under the engine key, (ii) increments the Run completed_engines counter
by exactly one, and (iii) forwards the outcome into the Failure Tracker: a
success invokes the success-record operation (count reset to 0, no skip),
a failure the failure-record operation (count incremented by one). -/
theorem c3_engine_completed_mirroring (st : CoordState)
    (runId srtPath engine : String) (result : EngineResult) (now : Nat)
    (run : Run) (file : FileResult)
    (hrid : st.currentRunId = some runId)
    (hrun : getRun st.sm.db runId = some run)
    (hfile : (getFileResults st.sm.db runId).find?
      (fun f => f.file_path == srtPath) = some file) :
    ((getFileResults (coordHandleEngineCompleted st srtPath engine result
          now).1.sm.db runId).find? (fun f => f.file_path == srtPath)
        = some { file with engines := setKey file.engines engine result,
                           updated_at := now } ∧
      lookupKey (setKey file.engines engine result) engine = some result) ∧
    getRun (coordHandleEngineCompleted st srtPath engine result now).1.sm.db
        runId
      = some { run with completed_engines := run.completed_engines + 1 } ∧
    (result.success = true →
      (coordHandleEngineCompleted st srtPath engine result now).1.tracker
          = recordEngineSuccess st.tracker srtPath engine now ∧
      consecutiveFailures (coordHandleEngineCompleted st srtPath engine result
          now).1.tracker srtPath engine = 0 ∧
      shouldSkipEngine (coordHandleEngineCompleted st srtPath engine result
          now).1.tracker srtPath engine = false) ∧
    (result.success = false →
      (coordHandleEngineCompleted st srtPath engine result now).1.tracker
          = recordEngineFailure st.tracker srtPath engine now ∧
      consecutiveFailures (coordHandleEngineCompleted st srtPath engine result
          now).1.tracker srtPath engine
        = consecutiveFailures st.tracker srtPath engine + 1) := by
  unfold coordHandleEngineCompleted
  rw [hrid]
  dsimp only
  have hup := smUpdateFileEngine_found st.sm runId srtPath engine result now
    file hfile
  refine ⟨⟨?_, lookupKey_setKey_self file.engines engine result⟩, ?_, ?_, ?_⟩
  · rw [getFileResults_congr _ _ _ (file_results_smIncrementCompletedEngines
      (smUpdateFileEngine st.sm runId srtPath engine result now).1 runId)]
    exact hup.2
  · apply getRun_smIncrementCompletedEngines
    rw [getRun_congr_runs _ st.sm.db _ (runs_smUpdateFileEngine st.sm runId
      srtPath engine result now)]
    exact hrun
  · intro hs
    rw [if_pos hs]
    exact ⟨rfl, consecutiveFailures_recordEngineSuccess st.tracker srtPath
      engine now, shouldSkip_recordEngineSuccess st.tracker srtPath engine now⟩
  · intro hs
    rw [if_neg (by rw [hs]; exact Bool.false_ne_true)]
    exact ⟨rfl, consecutiveFailures_recordEngineFailure st.tracker srtPath
      engine now⟩

/-- The Run row that createRun "run-1" 10 1 inserts. -/
def c3Run : Run :=
  { id := "run-1", start_time := 10, end_time := none, total_files := 1,
    completed := 0, skipped := 0, failed := 0, total_engines := 0,
    completed_engines := 0, status := RunStatus.running, logs := "" }

/-- The FileResult row that createFileResult inserts for a.srt. -/
def c3File : FileResult :=
  { run_id := "run-1", file_path := "a.srt", video_path := some "a.mkv",
    status := FileStatus.pending, current_engine := none, engines := [],
    created_at := 11, updated_at := 11 }

/-- A failing engine result as emitted by file:engine_completed. -/
def c3Result : EngineResult :=
  { success := false, duration := 4, message := "Error processing a.srt",
    skipped := false }

/-- C3 witness: the mirroring theorem applied to the concrete coordinator
state with one run, one file and an empty tracker, on a failing result. -/
theorem c3_engine_completed_mirroring_witness :
    (c7State.currentRunId = some "run-1" ∧
      getRun c7State.sm.db "run-1" = some c3Run ∧
      (getFileResults c7State.sm.db "run-1").find?
        (fun f => f.file_path == "a.srt") = some c3File) ∧
    (((getFileResults (coordHandleEngineCompleted c7State "a.srt" "ffsubsync"
          c3Result 12).1.sm.db "run-1").find? (fun f => f.file_path == "a.srt")
        = some { c3File with
                   engines := setKey c3File.engines "ffsubsync" c3Result,
                   updated_at := 12 } ∧
      lookupKey (setKey c3File.engines "ffsubsync" c3Result) "ffsubsync"
        = some c3Result) ∧
    getRun (coordHandleEngineCompleted c7State "a.srt" "ffsubsync" c3Result
        12).1.sm.db "run-1"
      = some { c3Run with completed_engines := c3Run.completed_engines + 1 } ∧
    (c3Result.success = true →
      (coordHandleEngineCompleted c7State "a.srt" "ffsubsync" c3Result
          12).1.tracker
        = recordEngineSuccess c7State.tracker "a.srt" "ffsubsync" 12 ∧
      consecutiveFailures (coordHandleEngineCompleted c7State "a.srt"
          "ffsubsync" c3Result 12).1.tracker "a.srt" "ffsubsync" = 0 ∧
      shouldSkipEngine (coordHandleEngineCompleted c7State "a.srt" "ffsubsync"
          c3Result 12).1.tracker "a.srt" "ffsubsync" = false) ∧
    (c3Result.success = false →
      (coordHandleEngineCompleted c7State "a.srt" "ffsubsync" c3Result
          12).1.tracker
        = recordEngineFailure c7State.tracker "a.srt" "ffsubsync" 12 ∧
      consecutiveFailures (coordHandleEngineCompleted c7State "a.srt"
          "ffsubsync" c3Result 12).1.tracker "a.srt" "ffsubsync"
        = consecutiveFailures c7State.tracker "a.srt" "ffsubsync" + 1)) :=
  ⟨⟨rfl, by rfl, by rfl⟩,
    c3_engine_completed_mirroring c7State "run-1" "a.srt" "ffsubsync" c3Result
      12 c3Run c3File rfl (by rfl) (by rfl)⟩

/-! ## Claim C8: startup recovery of runs left running -/

theorem insertByStartDesc_perm (r : Run) (l : List Run) :
    (insertByStartDesc r l).Perm (r :: l) := by
  induction l with
  | nil => exact List.Perm.refl _
  | cons x xs ih =>
    unfold insertByStartDesc
    by_cases h : x.start_time < r.start_time
    · rw [if_pos h]
    · rw [if_neg h]
      exact (List.Perm.cons x ih).trans (List.Perm.swap r x xs)

theorem sortByStartDesc_perm (l : List Run) : (sortByStartDesc l).Perm l := by
  induction l with
  | nil => exact List.Perm.refl _
  | cons r rs ih =>
    unfold sortByStartDesc
    exact (insertByStartDesc_perm r _).trans (List.Perm.cons r ih)

theorem mem_getRunHistory (db : DbState) (limit : Nat) (r : Run)
    (h : r ∈ getRunHistory db limit) : r ∈ db.runs := by
  unfold getRunHistory at h
  exact (sortByStartDesc_perm db.runs).mem_iff.mp (List.take_subset _ _ h)

theorem nodup_ids_getRunHistory (db : DbState) (limit : Nat)
    (h : (db.runs.map Run.id).Nodup) :
    ((getRunHistory db limit).map Run.id).Nodup := by
  unfold getRunHistory
  have hnd : ((sortByStartDesc db.runs).map Run.id).Nodup :=
    (((sortByStartDesc_perm db.runs).map Run.id).nodup_iff).mpr h
  exact hnd.sublist ((List.take_sublist limit _).map Run.id)

theorem find?_id_of_mem_nodup (l : List Run) (r : Run) (hmem : r ∈ l)
    (hnd : (l.map Run.id).Nodup) : l.find? (fun x => x.id == r.id) = some r := by
  induction l with
  | nil => cases hmem
  | cons a l ih =>
    rcases List.mem_cons.mp hmem with rfl | hmem2
    · exact List.find?_cons_of_pos _ (beq_self_eq_true _)
    · have hnd2 := List.nodup_cons.mp hnd
      have hne : (a.id == r.id) = false := by
        apply beq_eq_false_iff_ne.mpr
        intro he
        exact hnd2.1 (by rw [he]; exact List.mem_map_of_mem Run.id hmem2)
      rw [List.find?_cons_of_neg _ (by rw [hne]; exact Bool.false_ne_true),
        ih hmem2 hnd2.2]

theorem getRun_foldl_cancel_not_mem (L : List Run) (db : DbState) (id : String)
    (hid : ∀ u ∈ L, u.id ≠ id) :
    getRun (L.foldl (fun acc run => updateRun acc run.id
      (fun r => { r with status := RunStatus.cancelled,
                         end_time := some run.start_time })) db) id
      = getRun db id := by
  induction L generalizing db with
  | nil => rfl
  | cons a L ih =>
    rw [List.foldl_cons]
    rw [ih _ (fun u hu => hid u (List.mem_cons_of_mem a hu))]
    exact getRun_updateRun_ne db a.id id _ (fun x => rfl)
      (fun he => (hid a (List.mem_cons_self a L)) he.symm)

theorem getRun_foldl_cancel_mem (L : List Run) :
    ∀ (db : DbState) (r : Run), r ∈ L → (L.map Run.id).Nodup →
      getRun db r.id = some r →
      getRun (L.foldl (fun acc run => updateRun acc run.id
        (fun x => { x with status := RunStatus.cancelled,
                           end_time := some run.start_time })) db) r.id
        = some { r with status := RunStatus.cancelled,
                        end_time := some r.start_time } := by
  induction L with
  | nil =>
    intro db r hmem hnd hget
    cases hmem
  | cons a L ih =>
    intro db r hmem hnd hget
    rw [List.foldl_cons]
    rcases List.mem_cons.mp hmem with rfl | hmem2
    · have hids : ∀ u ∈ L, u.id ≠ r.id := by
        intro u hu he
        exact (List.nodup_cons.mp hnd).1
          (by rw [← he]; exact List.mem_map_of_mem Run.id hu)
      rw [getRun_foldl_cancel_not_mem L _ r.id hids]
      rw [getRun_updateRun db r.id r.id
        (fun x => { x with status := RunStatus.cancelled,
                           end_time := some r.start_time }) (fun x => rfl), hget]
      simp only [Option.map_some']
      rw [if_pos (beq_self_eq_true r.id)]
    · have hne : a.id ≠ r.id := by
        intro he
        exact (List.nodup_cons.mp hnd).1
          (by rw [he]; exact List.mem_map_of_mem Run.id hmem2)
      exact ih (updateRun db a.id
          (fun x => { x with status := RunStatus.cancelled,
                             end_time := some a.start_time })) r hmem2
        (List.nodup_cons.mp hnd).2
        (by
          rw [getRun_updateRun_ne db a.id r.id
            (fun x => { x with status := RunStatus.cancelled,
                               end_time := some a.start_time })
            (fun x => rfl) (Ne.symm hne)]
          exact hget)

/-- C8 (amended): on State-Store initialization, every Run with status
running that lies among the 100 most recent runs (newest first by start
time) is updated to status cancelled with end_time equal to its own
start_time; handleIncompleteRuns consults only getRunHistory(100), not the
whole table. -/
theorem c8_startup_recovery_amended (db : DbState)
    (hnd : (db.runs.map Run.id).Nodup) :
    ∀ r ∈ getRunHistory db 100, r.status = RunStatus.running →
      getRun (handleIncompleteRuns db) r.id
        = some { r with status := RunStatus.cancelled,
                        end_time := some r.start_time } := by
  intro r hr hst
  unfold handleIncompleteRuns
  apply getRun_foldl_cancel_mem
  · exact List.mem_filter.mpr ⟨hr, by rw [hst]; exact beq_self_eq_true _⟩
  · exact (nodup_ids_getRunHistory db 100 hnd).sublist
      ((List.filter_sublist _).map Run.id)
  · exact find?_id_of_mem_nodup db.runs r (mem_getRunHistory db 100 r hr) hnd

/-- A run as persisted by a previous process lifetime; run 0 was left
running, runs 1..100 are completed and newer. -/
def mkC8Run (i : Nat) : Run :=
  { id := toString i, start_time := i, end_time := none, total_files := 0,
    completed := 0, skipped := 0, failed := 0, total_engines := 0,
    completed_engines := 0,
    status := if i = 0 then RunStatus.running else RunStatus.completed,
    logs := "" }

/-- A store holding 101 persisted runs: the oldest one is still running. -/
def c8BigDb : DbState :=
  { runs := (List.range 101).map mkC8Run, file_results := [] }

/-- C8 counterexample: the claim quantifies over all runs in the store, but
handleIncompleteRuns reads only the 100 most recent runs, so in a store of
101 runs whose oldest is still marked running, that run is still running
after initialization instead of being cancelled. -/
theorem c8_counterexample :
    (getRun c8BigDb "0").map Run.status = some RunStatus.running ∧
    (getRun (handleIncompleteRuns c8BigDb) "0").map Run.status
      = some RunStatus.running := by
  constructor
  · rfl
  · rfl

/-- A two-run store for the C8 witness: one run left running, one completed. -/
def c8SmallDb : DbState :=
  { runs := [{ id := "old", start_time := 3, end_time := none, total_files := 2,
               completed := 1, skipped := 0, failed := 0, total_engines := 6,
               completed_engines := 4, status := RunStatus.running, logs := "x" },
             { id := "new", start_time := 9, end_time := some 10,
               total_files := 1, completed := 1, skipped := 0, failed := 0,
               total_engines := 3, completed_engines := 3,
               status := RunStatus.completed, logs := "y" }],
    file_results := [] }

/-- C8 witness: the amended recovery theorem applied to the two-run store. -/
theorem c8_startup_recovery_witness :
    (c8SmallDb.runs.map Run.id).Nodup ∧
    (∀ r ∈ getRunHistory c8SmallDb 100, r.status = RunStatus.running →
      getRun (handleIncompleteRuns c8SmallDb) r.id
        = some { r with status := RunStatus.cancelled,
                        end_time := some r.start_time }) :=
  ⟨by decide, c8_startup_recovery_amended c8SmallDb (by decide)⟩

/-! ## ProcessingEngine per-file engine loop (src/processingEngine.ts) -/

/-- What one engine invocation does for the file: the switch falls through
for an engine name outside {ffsubsync, autosubsync, alass}; otherwise the
awaited call either throws or returns a result whose skipped flag marks an
already-processed output (the Date.now() difference is the duration). -/
inductive EngineOutcome
| unknownEngine
| throws (message : String) (duration : Nat)
| engineReturns (success : Bool) (skipped : Bool) (message : String)
    (duration : Nat)
deriving DecidableEq

/-- The lifecycle events processFile emits for one file. -/
inductive FileEvent
| fileStarted
| noVideo
| engineStarted (engine : String)
| engineCompleted (engine : String) (result : EngineResult)
| fileCompleted
| fileSkipped (reason : String)
| fileFailed
deriving DecidableEq

/-- The optional-chaining call this.stateManager?.shouldSkipEngine: false
when no stateManager is injected. -/
def shouldSkipOpt (tracker : Option FailureTable) (srtPath engine : String) :
    Bool :=
  match tracker with
  | some t => shouldSkipEngine t srtPath engine
  | none => false

/-- The engine loop of ProcessingEngine.processFile over the enabled engines,
carrying the anyEngineSucceeded and allEnginesSkipped accumulators.  The
returned Option is none when the cancellation check aborted the loop
(file:skipped(cancelled) emitted, remaining engines dropped), and
some (anyEngineSucceeded, allEnginesSkipped) when the loop ran to the end. -/
def runEngines (tracker : Option FailureTable) (beh : String → EngineOutcome)
    (cancelled : Bool) (srtPath : String) :
    List String → Bool → Bool → List FileEvent × Option (Bool × Bool)
  | [], anySucc, allSkip => ([], some (anySucc, allSkip))
  | e :: rest, anySucc, allSkip =>
    if cancelled then ([FileEvent.fileSkipped "cancelled"], none)
    else if shouldSkipOpt tracker srtPath e then
      let res := runEngines tracker beh cancelled srtPath rest anySucc allSkip
      (FileEvent.engineCompleted e
        { success := false, duration := 0,
          message := "Skipped due to 3+ consecutive failures",
          skipped := true } :: res.1, res.2)
    else
      match beh e with
      | EngineOutcome.unknownEngine =>
        let res := runEngines tracker beh cancelled srtPath rest anySucc allSkip
        (FileEvent.engineStarted e :: res.1, res.2)
      | EngineOutcome.throws msg dur =>
        let res := runEngines tracker beh cancelled srtPath rest anySucc false
        (FileEvent.engineStarted e ::
          FileEvent.engineCompleted e
            { success := false, duration := dur, message := msg,
              skipped := false } :: res.1, res.2)
      | EngineOutcome.engineReturns succ skip msg dur =>
        if skip then
          let res := runEngines tracker beh cancelled srtPath rest anySucc allSkip
          (FileEvent.engineStarted e ::
            FileEvent.engineCompleted e
              { success := succ, duration := dur, message := msg,
                skipped := true } :: res.1, res.2)
        else
          let res := runEngines tracker beh cancelled srtPath rest
            (anySucc || succ) false
          (FileEvent.engineStarted e ::
            FileEvent.engineCompleted e
              { success := succ, duration := dur, message := msg,
                skipped := false } :: res.1, res.2)

/-- ProcessingEngine.processFile: cancellation check, video match (passed in
from findMatchingVideoFile), file:started, the engine loop started with
anyEngineSucceeded = false and allEnginesSkipped = true, then the terminal
branch: completed when anyEngineSucceeded, else
skipped(all_engines_skipped) when allEnginesSkipped, else failed. -/
def processFile (cancelled : Bool) (videoPath : Option String)
    (tracker : Option FailureTable) (beh : String → EngineOutcome)
    (srtPath : String) (enabledEngines : List String) : List FileEvent :=
  if cancelled then [FileEvent.fileSkipped "cancelled"]
  else
    match videoPath with
    | none => [FileEvent.fileStarted, FileEvent.noVideo]
    | some _ =>
      match runEngines tracker beh cancelled srtPath enabledEngines false true
        with
      | (evs, none) => FileEvent.fileStarted :: evs
      | (evs, some (anySucc, allSkip)) =>
        FileEvent.fileStarted :: evs ++
          [if anySucc then FileEvent.fileCompleted
           else if allSkip then FileEvent.fileSkipped "all_engines_skipped"
           else FileEvent.fileFailed]

/-- An engine is actually attempted for the file iff the tracker does not
skip it, its name is recognized, and its result is not marked skipped
(exceptions count as attempts). -/
def engineAttempted (tracker : Option FailureTable)
    (beh : String → EngineOutcome) (srtPath e : String) : Bool :=
  !shouldSkipOpt tracker srtPath e &&
    (match beh e with
     | EngineOutcome.unknownEngine => false
     | EngineOutcome.throws _ _ => true
     | EngineOutcome.engineReturns _ skip _ _ => !skip)

/-- An engine actually ran and reported success for the file. -/
def engineSucceeded (tracker : Option FailureTable)
    (beh : String → EngineOutcome) (srtPath e : String) : Bool :=
  !shouldSkipOpt tracker srtPath e &&
    (match beh e with
     | EngineOutcome.engineReturns succ skip _ _ => succ && !skip
     | _ => false)

theorem runEngines_flags (tracker : Option FailureTable)
    (beh : String → EngineOutcome) (srtPath : String) :
    ∀ (engines : List String) (anySucc allSkip : Bool),
      (runEngines tracker beh false srtPath engines anySucc allSkip).2
        = some (anySucc || engines.any (engineSucceeded tracker beh srtPath),
                allSkip && engines.all
                  (fun e => !engineAttempted tracker beh srtPath e)) := by
  intro engines
  induction engines with
  | nil =>
    intro anySucc allSkip
    simp [runEngines]
  | cons e rest ih =>
    intro anySucc allSkip
    simp only [runEngines]
    rw [if_neg Bool.false_ne_true]
    by_cases hs : shouldSkipOpt tracker srtPath e = true
    · rw [if_pos hs]
      dsimp only
      rw [ih]
      have h1 : engineSucceeded tracker beh srtPath e = false := by
        simp [engineSucceeded, hs]
      have h2 : engineAttempted tracker beh srtPath e = false := by
        simp [engineAttempted, hs]
      simp [h1, h2]
    · have hs2 : shouldSkipOpt tracker srtPath e = false :=
        Bool.eq_false_iff.mpr hs
      rw [if_neg hs]
      cases hbeh : beh e with
      | unknownEngine =>
        dsimp only
        rw [ih]
        have h1 : engineSucceeded tracker beh srtPath e = false := by
          simp [engineSucceeded, hs2, hbeh]
        have h2 : engineAttempted tracker beh srtPath e = false := by
          simp [engineAttempted, hs2, hbeh]
        simp [h1, h2]
      | throws msg dur =>
        dsimp only
        rw [ih]
        have h1 : engineSucceeded tracker beh srtPath e = false := by
          simp [engineSucceeded, hs2, hbeh]
        have h2 : engineAttempted tracker beh srtPath e = true := by
          simp [engineAttempted, hs2, hbeh]
        simp [h1, h2]
      | engineReturns succ skip msg dur =>
        dsimp only
        by_cases hskip : skip = true
        · rw [if_pos hskip]
          rw [ih]
          have h1 : engineSucceeded tracker beh srtPath e = false := by
            simp [engineSucceeded, hs2, hbeh, hskip]
          have h2 : engineAttempted tracker beh srtPath e = false := by
            simp [engineAttempted, hs2, hbeh, hskip]
          simp [h1, h2]
        · have hskip2 : skip = false := Bool.eq_false_iff.mpr hskip
          rw [if_neg hskip]
          rw [ih]
          have h1 : engineSucceeded tracker beh srtPath e = succ := by
            simp [engineSucceeded, hs2, hbeh, hskip2]
          have h2 : engineAttempted tracker beh srtPath e = true := by
            simp [engineAttempted, hs2, hbeh, hskip2]
          simp [h1, h2, Bool.or_assoc]

/-! ## Claim C4: the terminal state after the engine loop -/

/-- C4 (amended): a file that runs the engine list (not cancelled, video
matched) emits exactly one terminal event after the loop: completed iff some
enabled engine was actually attempted (tracker did not skip it, its name is
recognized, its result is not marked already-processed) and reported
success; otherwise skipped with reason all_engines_skipped iff no enabled
engine was actually attempted, where besides tracker-skips an
already-processed (result.skipped) engine and an unrecognized engine name
also count as not attempted; otherwise failed. -/
theorem c4_terminal_state_amended (tracker : Option FailureTable)
    (beh : String → EngineOutcome) (srtPath v : String)
    (engines : List String) :
    processFile false (some v) tracker beh srtPath engines
      = FileEvent.fileStarted ::
          (runEngines tracker beh false srtPath engines false true).1 ++
          [if engines.any (engineSucceeded tracker beh srtPath)
           then FileEvent.fileCompleted
           else if engines.all
             (fun e => !engineAttempted tracker beh srtPath e)
           then FileEvent.fileSkipped "all_engines_skipped"
           else FileEvent.fileFailed] := by
  unfold processFile
  rw [if_neg Bool.false_ne_true]
  have hflag := runEngines_flags tracker beh srtPath engines false true
  rcases hsplit : runEngines tracker beh false srtPath engines false true with
    ⟨evs, flags⟩
  rw [hsplit] at hflag
  dsimp only at hflag
  subst hflag
  dsimp only
  simp

/-- The behavior of an engine whose output file already exists: it runs and
reports an already-processed, skipped result. -/
def c4Beh : String → EngineOutcome := fun _ =>
  EngineOutcome.engineReturns true true
    "Skipping a.ffsubsync.srt - already processed" 2

/-- C4 counterexample: with an empty failure tracker (no engine is
tracker-skipped) a single enabled engine that runs and reports an
already-processed result still drives the file to
skipped(all_engines_skipped); the spec attribution of that outcome to all
engines having been tracker-skipped is wrong, and the engine did actually
run (its engine_started event is emitted). -/
theorem c4_counterexample :
    shouldSkipEngine [] "a.srt" "ffsubsync" = false ∧
    processFile false (some "a.mkv") (some []) c4Beh "a.srt" ["ffsubsync"]
      = [FileEvent.fileStarted, FileEvent.engineStarted "ffsubsync",
         FileEvent.engineCompleted "ffsubsync"
           { success := true, duration := 2,
             message := "Skipping a.ffsubsync.srt - already processed",
             skipped := true },
         FileEvent.fileSkipped "all_engines_skipped"] :=
  ⟨rfl, rfl⟩

/-! ## Claim C6: the tracker-skip branch of the engine loop -/

/-- C6 (amended): when the failure tracker says to skip an engine for the
file, the loop step does not invoke the engine (no engine_started, the
behavior is never consulted) and emits exactly one synthetic terminal
engine result with success false, skipped true, duration 0 and message
"Skipped due to 3+ consecutive failures", then continues with the remaining
engines unchanged. -/
theorem c6_skip_synthesizes_result_amended (tracker : FailureTable)
    (beh : String → EngineOutcome) (srtPath e : String) (rest : List String)
    (anySucc allSkip : Bool)
    (h : shouldSkipEngine tracker srtPath e = true) :
    runEngines (some tracker) beh false srtPath (e :: rest) anySucc allSkip
      = (FileEvent.engineCompleted e
           { success := false, duration := 0,
             message := "Skipped due to 3+ consecutive failures",
             skipped := true }
          :: (runEngines (some tracker) beh false srtPath rest anySucc
              allSkip).1,
         (runEngines (some tracker) beh false srtPath rest anySucc
           allSkip).2) := by
  simp only [runEngines]
  rw [if_neg Bool.false_ne_true,
    if_pos (show shouldSkipOpt (some tracker) srtPath e = true from h)]

/-- A tracker state in which ffsubsync has 3 consecutive failures recorded
for a.srt and is therefore skipped. -/
def c6Tracker : FailureTable :=
  recordEngineFailure (recordEngineFailure
    (recordEngineFailure [] "a.srt" "ffsubsync" 0) "a.srt" "ffsubsync" 1)
    "a.srt" "ffsubsync" 2

/-- C6 counterexample: the synthetic result the code emits for a
tracker-skipped engine carries the message
"Skipped due to 3+ consecutive failures", not the message
"skipped: repeated failures" stated in the claim. -/
theorem c6_counterexample :
    shouldSkipEngine c6Tracker "a.srt" "ffsubsync" = true ∧
    (runEngines (some c6Tracker) (fun _ => EngineOutcome.unknownEngine) false
      "a.srt" ["ffsubsync"] false true).1
      = [FileEvent.engineCompleted "ffsubsync"
          { success := false, duration := 0,
            message := "Skipped due to 3+ consecutive failures",
            skipped := true }] ∧
    ¬ ("Skipped due to 3+ consecutive failures"
        = "skipped: repeated failures") := by
  refine ⟨by decide, rfl, by decide⟩

/-- C6 witness: the amended skip-branch theorem applied to the concrete
tracker that skips ffsubsync for a.srt. -/
theorem c6_skip_synthesizes_result_witness :
    shouldSkipEngine c6Tracker "a.srt" "ffsubsync" = true ∧
    runEngines (some c6Tracker) (fun _ => EngineOutcome.unknownEngine) false
      "a.srt" ["ffsubsync"] false true
      = (FileEvent.engineCompleted "ffsubsync"
           { success := false, duration := 0,
             message := "Skipped due to 3+ consecutive failures",
             skipped := true }
          :: (runEngines (some c6Tracker) (fun _ => EngineOutcome.unknownEngine)
              false "a.srt" [] false true).1,
         (runEngines (some c6Tracker) (fun _ => EngineOutcome.unknownEngine)
           false "a.srt" [] false true).2) :=
  ⟨by decide, c6_skip_synthesizes_result_amended c6Tracker
    (fun _ => EngineOutcome.unknownEngine) "a.srt" "ffsubsync" [] false true
    (by decide)⟩

/-! ## Claim C5: batch partitioning and strictly sequential batches
(ProcessingEngine.processRun, src/processingEngine.ts lines 59-65) -/

/-- The batch loop for (i = 0; i < files.length; i += c) with
slice(i, i + c): peel the next c files each iteration.  Recursion is fuelled
by the list length; for c >= 1 each iteration drops at least one element,
so the fuel never runs out before the list does (for c = 0 the JavaScript
loop would never terminate; the claim requires c >= 1). -/
def chunksGo {α : Type} (c : Nat) : Nat → List α → List (List α)
  | 0, _ => []
  | _ + 1, [] => []
  | fuel + 1, x :: xs =>
    (x :: xs).take c :: chunksGo c fuel ((x :: xs).drop c)

/-- The consecutive batches of size c the run loop processes. -/
def chunks {α : Type} (c : Nat) (l : List α) : List (List α) :=
  chunksGo c l.length l

theorem chunksGo_flatten {α : Type} (c : Nat) (hc : 1 ≤ c) :
    ∀ (fuel : Nat) (l : List α), l.length ≤ fuel →
      (chunksGo c fuel l).flatten = l := by
  intro fuel
  induction fuel with
  | zero =>
    intro l hl
    have hnil : l = [] := List.eq_nil_of_length_eq_zero (Nat.le_zero.mp hl)
    subst hnil
    rfl
  | succ fuel ih =>
    intro l hl
    cases l with
    | nil => rfl
    | cons x xs =>
      show (((x :: xs).take c) :: chunksGo c fuel ((x :: xs).drop c)).flatten
        = x :: xs
      rw [List.flatten_cons, ih _ ?hfuel, List.take_append_drop]
      case hfuel =>
        rw [List.length_drop]
        simp only [List.length_cons] at hl ⊢
        omega

theorem chunks_flatten {α : Type} (c : Nat) (hc : 1 ≤ c) (l : List α) :
    (chunks c l).flatten = l :=
  chunksGo_flatten c hc l.length l (Nat.le_refl _)

theorem chunksGo_mem {α : Type} (c : Nat) (hc : 1 ≤ c) :
    ∀ (fuel : Nat) (l : List α) (b : List α), b ∈ chunksGo c fuel l →
      0 < b.length ∧ b.length ≤ c := by
  intro fuel
  induction fuel with
  | zero =>
    intro l b hb
    exact absurd hb (List.not_mem_nil b)
  | succ fuel ih =>
    intro l b hb
    cases l with
    | nil => exact absurd hb (List.not_mem_nil b)
    | cons x xs =>
      rcases List.mem_cons.mp hb with rfl | hb2
      · constructor
        · rw [List.length_take]
          simp only [List.length_cons]
          omega
        · rw [List.length_take]
          omega
      · exact ih _ b hb2

theorem chunks_mem {α : Type} (c : Nat) (hc : 1 ≤ c) (l : List α)
    (b : List α) (hb : b ∈ chunks c l) : 0 < b.length ∧ b.length ≤ c :=
  chunksGo_mem c hc l.length l b hb

theorem chunksGo_nil {α : Type} (c : Nat) (fuel : Nat) :
    chunksGo c fuel ([] : List α) = [] := by
  cases fuel <;> rfl

theorem chunksGo_full {α : Type} (c : Nat) (hc : 1 ≤ c) :
    ∀ (fuel : Nat) (l : List α) (i : Nat)
      (hi : i + 1 < (chunksGo c fuel l).length),
      ((chunksGo c fuel l).get ⟨i, Nat.lt_of_succ_lt hi⟩).length = c := by
  intro fuel
  induction fuel with
  | zero =>
    intro l i hi
    exact absurd hi (Nat.not_lt_zero (i + 1))
  | succ fuel ih =>
    intro l i hi
    cases l with
    | nil => exact absurd hi (Nat.not_lt_zero (i + 1))
    | cons x xs =>
      cases i with
      | zero =>
        have h2 : (chunksGo c (fuel + 1) (x :: xs)).length
            = (chunksGo c fuel ((x :: xs).drop c)).length + 1 := rfl
        have hrec : 0 < (chunksGo c fuel ((x :: xs).drop c)).length := by
          omega
        have hdrop : (x :: xs).drop c ≠ [] := by
          intro hnil
          rw [hnil, chunksGo_nil] at hrec
          exact absurd hrec (Nat.lt_irrefl 0)
        have hlen : c < (x :: xs).length := by
          have hld : ((x :: xs).drop c).length = (x :: xs).length - c :=
            List.length_drop c _
          have hpos : 0 < ((x :: xs).drop c).length :=
            List.length_pos.mpr hdrop
          omega
        show ((x :: xs).take c).length = c
        rw [List.length_take]
        omega
      | succ i =>
        have h2 : (chunksGo c (fuel + 1) (x :: xs)).length
            = (chunksGo c fuel ((x :: xs).drop c)).length + 1 := rfl
        have hi2 : i + 1 < (chunksGo c fuel ((x :: xs).drop c)).length := by
          omega
        exact ih ((x :: xs).drop c) i hi2

theorem chunks_full {α : Type} (c : Nat) (hc : 1 ≤ c) (l : List α) (i : Nat)
    (hi : i + 1 < (chunks c l).length) :
    ((chunks c l).get ⟨i, Nat.lt_of_succ_lt hi⟩).length = c :=
  chunksGo_full c hc l.length l i hi

/-- Start and settle of one file inside a batch: Promise.all starts every
file of the batch, then the loop awaits all their settlements before the
next slice is taken. -/
inductive BatchEvent
| fileStart (f : String)
| fileSettle (f : String)
deriving DecidableEq

/-- The trace of one batch: batch.map(processFile) starts the files in
order, then their settlements arrive in some order (settleOrder b), all
before the enclosing await Promise.all returns. -/
def blockEvents (settleOrder : List String → List String)
    (b : List String) : List BatchEvent :=
  b.map BatchEvent.fileStart ++ (settleOrder b).map BatchEvent.fileSettle

/-- The event trace of the batch loop of ProcessingEngine.processRun:
the per-batch traces in batch order. -/
def runTrace (c : Nat) (settleOrder : List String → List String)
    (files : List String) : List BatchEvent :=
  ((chunks c files).map (blockEvents settleOrder)).flatten

theorem start_mem_blockEvents (settleOrder : List String → List String)
    (b : List String) (g : String)
    (h : BatchEvent.fileStart g ∈ blockEvents settleOrder b) : g ∈ b := by
  rcases List.mem_append.mp h with h1 | h2
  · rcases List.mem_map.mp h1 with ⟨x, hx, he⟩
    injection he with h3
    subst h3
    exact hx
  · rcases List.mem_map.mp h2 with ⟨x, hx, he⟩
    exact BatchEvent.noConfusion he

theorem settle_mem_blockEvents (settleOrder : List String → List String)
    (hσ : ∀ b, (settleOrder b).Perm b) (b : List String) (f : String)
    (h : BatchEvent.fileSettle f ∈ blockEvents settleOrder b) : f ∈ b := by
  rcases List.mem_append.mp h with h1 | h2
  · rcases List.mem_map.mp h1 with ⟨x, hx, he⟩
    exact BatchEvent.noConfusion he
  · rcases List.mem_map.mp h2 with ⟨x, hx, he⟩
    injection he with h3
    subst h3
    exact (hσ b).mem_iff.mp hx

theorem get_append_lt_of_not_mem_right {α : Type} (l1 l2 : List α) (p : Nat)
    (hp : p < (l1 ++ l2).length) (x : α)
    (hx : (l1 ++ l2).get ⟨p, hp⟩ = x) (hnot : x ∉ l2) : p < l1.length := by
  by_contra hcon
  push_neg at hcon
  apply hnot
  rw [← hx]
  have hlen : p - l1.length < l2.length := by
    rw [List.length_append] at hp; omega
  rw [@List.get_append_right α p l1 l2 hcon hp hlen]
  exact List.get_mem _ _ _

theorem get_append_ge_of_not_mem_left {α : Type} (l1 l2 : List α) (q : Nat)
    (hq : q < (l1 ++ l2).length) (x : α)
    (hx : (l1 ++ l2).get ⟨q, hq⟩ = x) (hnot : x ∉ l1) : l1.length ≤ q := by
  by_contra hcon
  push_neg at hcon
  apply hnot
  rw [← hx]
  rw [@List.get_append_left α q l1 l2 hcon hq]
  exact List.get_mem _ _ _

theorem runTrace_split (c : Nat) (settleOrder : List String → List String)
    (files : List String) (j : Nat) :
    runTrace c settleOrder files
      = (((chunks c files).take j).map (blockEvents settleOrder)).flatten ++
        (((chunks c files).drop j).map (blockEvents settleOrder)).flatten := by
  unfold runTrace
  conv_lhs => rw [← List.take_append_drop j (chunks c files)]
  rw [List.map_append, List.flatten_append]

theorem runTrace_sequencing (c : Nat)
    (settleOrder : List String → List String) (files : List String)
    (hc : 1 ≤ c) (hσ : ∀ b, (settleOrder b).Perm b) (hnd : files.Nodup)
    (i j : Nat) (hi : i < (chunks c files).length)
    (hj : j < (chunks c files).length) (hij : i < j) (f g : String)
    (hf : f ∈ (chunks c files).get ⟨i, hi⟩)
    (hg : g ∈ (chunks c files).get ⟨j, hj⟩)
    (p q : Nat) (hp : p < (runTrace c settleOrder files).length)
    (hq : q < (runTrace c settleOrder files).length)
    (hps : (runTrace c settleOrder files).get ⟨p, hp⟩
      = BatchEvent.fileSettle f)
    (hqs : (runTrace c settleOrder files).get ⟨q, hq⟩
      = BatchEvent.fileStart g) :
    p < q := by
  have hjoin : ((chunks c files).take j).flatten ++
      ((chunks c files).drop j).flatten = files := by
    rw [← List.flatten_append, List.take_append_drop]
    exact chunks_flatten c hc files
  have hdisj : List.Disjoint (((chunks c files).take j).flatten)
      (((chunks c files).drop j).flatten) :=
    List.disjoint_of_nodup_append (hjoin.symm ▸ hnd)
  have hfmem : f ∈ ((chunks c files).take j).flatten := by
    have hlt : i < ((chunks c files).take j).length := by
      rw [List.length_take]; omega
    have he : ((chunks c files).take j).get ⟨i, hlt⟩
        = (chunks c files).get ⟨i, hi⟩ := by
      simp [List.get_eq_getElem, List.getElem_take]
    exact List.mem_flatten_of_mem
      (he ▸ List.get_mem ((chunks c files).take j) i hlt) hf
  have hgmem : g ∈ ((chunks c files).drop j).flatten := by
    have hlt2 : 0 < ((chunks c files).drop j).length := by
      rw [List.length_drop]; omega
    have he2 : ((chunks c files).drop j).get ⟨0, hlt2⟩
        = (chunks c files).get ⟨j, hj⟩ := by
      simp [List.get_eq_getElem, List.getElem_drop]
    exact List.mem_flatten_of_mem
      (he2 ▸ List.get_mem ((chunks c files).drop j) 0 hlt2) hg
  have hsettle_not : BatchEvent.fileSettle f ∉
      (((chunks c files).drop j).map (blockEvents settleOrder)).flatten := by
    intro hmem
    rcases List.mem_flatten.mp hmem with ⟨blk, hblk, hin⟩
    rcases List.mem_map.mp hblk with ⟨b, hb, rfl⟩
    exact hdisj hfmem
      (List.mem_flatten_of_mem hb
        (settle_mem_blockEvents settleOrder hσ b f hin))
  have hstart_not : BatchEvent.fileStart g ∉
      (((chunks c files).take j).map (blockEvents settleOrder)).flatten := by
    intro hmem
    rcases List.mem_flatten.mp hmem with ⟨blk, hblk, hin⟩
    rcases List.mem_map.mp hblk with ⟨b, hb, rfl⟩
    exact hdisj
      (List.mem_flatten_of_mem hb
        (start_mem_blockEvents settleOrder b g hin)) hgmem
  have hsplit := runTrace_split c settleOrder files j
  have hp2 : p < ((((chunks c files).take j).map
      (blockEvents settleOrder)).flatten ++
      (((chunks c files).drop j).map (blockEvents settleOrder)).flatten).length
      := by rw [← hsplit]; exact hp
  have hq2 : q < ((((chunks c files).take j).map
      (blockEvents settleOrder)).flatten ++
      (((chunks c files).drop j).map (blockEvents settleOrder)).flatten).length
      := by rw [← hsplit]; exact hq
  have hps2 : ((((chunks c files).take j).map
      (blockEvents settleOrder)).flatten ++
      (((chunks c files).drop j).map (blockEvents settleOrder)).flatten).get
        ⟨p, hp2⟩ = BatchEvent.fileSettle f := by
    rw [← List.get_of_eq hsplit ⟨p, hp⟩]
    exact hps
  have hqs2 : ((((chunks c files).take j).map
      (blockEvents settleOrder)).flatten ++
      (((chunks c files).drop j).map (blockEvents settleOrder)).flatten).get
        ⟨q, hq2⟩ = BatchEvent.fileStart g := by
    rw [← List.get_of_eq hsplit ⟨q, hq⟩]
    exact hqs
  have hplt := get_append_lt_of_not_mem_right _ _ p hp2 _ hps2 hsettle_not
  have hqge := get_append_ge_of_not_mem_left _ _ q hq2 _ hqs2 hstart_not
  omega

/-- C5: for every scanned file list and configured max-concurrency c >= 1,
the run loop partitions the list into consecutive batches of size c (every
batch nonempty and at most c, every batch but the last exactly c, and their
concatenation in order is the original list), and the batches are strictly
sequential: for any settlement order within each batch, every settle event
of a file of batch i appears in the trace strictly before every start event
of a file of a later batch j. -/
theorem c5_batching_sequential (c : Nat)
    (settleOrder : List String → List String) (files : List String)
    (hc : 1 ≤ c) (hσ : ∀ b, (settleOrder b).Perm b) (hnd : files.Nodup) :
    (chunks c files).flatten = files ∧
    (∀ b ∈ chunks c files, 0 < b.length ∧ b.length ≤ c) ∧
    (∀ i (hi : i + 1 < (chunks c files).length),
      ((chunks c files).get ⟨i, Nat.lt_of_succ_lt hi⟩).length = c) ∧
    (∀ i j (hi : i < (chunks c files).length)
      (hj : j < (chunks c files).length), i < j →
      ∀ f g, f ∈ (chunks c files).get ⟨i, hi⟩ →
        g ∈ (chunks c files).get ⟨j, hj⟩ →
        ∀ p q (hp : p < (runTrace c settleOrder files).length)
          (hq : q < (runTrace c settleOrder files).length),
          (runTrace c settleOrder files).get ⟨p, hp⟩
            = BatchEvent.fileSettle f →
          (runTrace c settleOrder files).get ⟨q, hq⟩
            = BatchEvent.fileStart g →
          p < q) :=
  ⟨chunks_flatten c hc files,
   fun b hb => chunks_mem c hc files b hb,
   fun i hi => chunks_full c hc files i hi,
   fun i j hi hj hij f g hf hg p q hp hq hps hqs =>
     runTrace_sequencing c settleOrder files hc hσ hnd i j hi hj hij f g hf
       hg p q hp hq hps hqs⟩

/-- C5 witness: the batching theorem applied to three files with
concurrency 2 and the in-order settlement order. -/
theorem c5_batching_sequential_witness :
    (1 ≤ 2 ∧ (∀ b : List String, b.Perm b) ∧
      (["a.srt", "b.srt", "c.srt"] : List String).Nodup) ∧
    ((chunks 2 ["a.srt", "b.srt", "c.srt"]).flatten
        = ["a.srt", "b.srt", "c.srt"] ∧
     (∀ b ∈ chunks 2 ["a.srt", "b.srt", "c.srt"],
        0 < b.length ∧ b.length ≤ 2) ∧
     (∀ i (hi : i + 1 < (chunks 2 ["a.srt", "b.srt", "c.srt"]).length),
       ((chunks 2 ["a.srt", "b.srt", "c.srt"]).get
         ⟨i, Nat.lt_of_succ_lt hi⟩).length = 2) ∧
     (∀ i j (hi : i < (chunks 2 ["a.srt", "b.srt", "c.srt"]).length)
       (hj : j < (chunks 2 ["a.srt", "b.srt", "c.srt"]).length), i < j →
       ∀ f g, f ∈ (chunks 2 ["a.srt", "b.srt", "c.srt"]).get ⟨i, hi⟩ →
         g ∈ (chunks 2 ["a.srt", "b.srt", "c.srt"]).get ⟨j, hj⟩ →
         ∀ p q (hp : p < (runTrace 2 (fun b => b)
             ["a.srt", "b.srt", "c.srt"]).length)
           (hq : q < (runTrace 2 (fun b => b)
             ["a.srt", "b.srt", "c.srt"]).length),
           (runTrace 2 (fun b => b) ["a.srt", "b.srt", "c.srt"]).get ⟨p, hp⟩
             = BatchEvent.fileSettle f →
           (runTrace 2 (fun b => b) ["a.srt", "b.srt", "c.srt"]).get ⟨q, hq⟩
             = BatchEvent.fileStart g →
           p < q)) :=
  ⟨⟨by decide, fun b => List.Perm.refl b, by decide⟩,
    c5_batching_sequential 2 (fun b => b) ["a.srt", "b.srt", "c.srt"]
      (by decide) (fun b => List.Perm.refl b) (by decide)⟩
